import Mathlib

/-!
Verification of the time-synchronization core of `pygpstime.py`.

The development shallowly embeds the program's core: the clock domain bridge
(`perf_to_system_time`), the sentence decoder (the `$GPRMC`/`$GNRMC` filter,
`pynmea2` validity check and `convert_nmea_to_datetime`), the offset tracker
(the `last_gps_utc` / `last_delta_sec` updates performed per decoded line in
`gps_thread_loop`), the sync path (`sync_time`, `set_system_time_utc`,
`set_system_time_local`) and the auto-sync scheduler (`schedule_auto_sync`,
`apply_auto_sync_interval`, `auto_sync_callback`).

Modelling conventions:
- `time.perf_counter()` values and wall-clock instants are rationals
  (seconds); Python float arithmetic is modelled exactly.
- Naive `datetime.datetime` values are `DateTime` records (proleptic
  Gregorian calendar fields plus microseconds).  Python's exact
  `datetime` / `timedelta` arithmetic is modelled by converting through
  microseconds-since-epoch (`toMicros` / `ofMicros`).
- An offset-aware datetime denotes an absolute instant; `astimezone()`
  applied to a naive value interprets it in the process's local zone,
  whose fixed UTC offset (in seconds) is the `off` field of `Env`.
- The Windows clock-setting boundary is represented by the `ClockCall`
  values recorded in `AppState.clockCalls`; `messagebox.showerror`
  pop-ups are recorded in `AppState.errors`, and `log_status` lines in
  `AppState.log`.
- `pynmea2.parse` is external to the repository; its outcome for a line is
  carried alongside the raw text in `LineInput.parsed` (`none` models a
  `pynmea2.ParseError`, `some msg` a parsed RMC message with its validity
  flag, datestamp and timestamp).
-/

namespace PyGpsTime

/-! Section: Calendar arithmetic (model of Python `datetime` arithmetic) -/

/-- Day count of a proleptic-Gregorian calendar date, relative to
1970-01-01 (floor-division form of the standard civil-from-days inverse). -/
def daysFromCivil (y : Int) (m d : Nat) : Int :=
  let y2 : Int := if m ≤ 2 then y - 1 else y
  let mp : Int := ((m : Int) + 9) % 12
  let doy : Int := (153 * mp + 2).ediv 5 + (d : Int) - 1
  y2 * 365 + y2.ediv 4 - y2.ediv 100 + y2.ediv 400 + doy - 719468

/-- Inverse of `daysFromCivil`: calendar date of a day count. -/
def civilFromDays (z0 : Int) : Int × Nat × Nat :=
  let z := z0 + 719468
  let era := z.ediv 146097
  let doe := z - era * 146097
  let yoe := (doe - doe.ediv 1460 + doe.ediv 36524 - doe.ediv 146096).ediv 365
  let y := yoe + era * 400
  let doy := doe - (365 * yoe + yoe.ediv 4 - yoe.ediv 100)
  let mp := (5 * doy + 2).ediv 153
  let d := doy - (153 * mp + 2).ediv 5 + 1
  let m := if mp < 10 then mp + 3 else mp - 9
  (if m ≤ 2 then y + 1 else y, m.toNat, d.toNat)

/-- A calendar date (model of Python `datetime.date`). -/
structure Date where
  year : Int
  month : Nat
  day : Nat
deriving DecidableEq

/-- A time of day (model of Python `datetime.time`). -/
structure Time where
  hour : Nat
  minute : Nat
  second : Nat
  microsecond : Nat
deriving DecidableEq

/-- A naive datetime (model of Python `datetime.datetime` without tzinfo). -/
structure DateTime where
  date : Date
  time : Time
deriving DecidableEq

/-- Model of `datetime.datetime.combine(date, time)`. -/
def DateTime.combine (d : Date) (t : Time) : DateTime := ⟨d, t⟩

/-- Microseconds since 1970-01-01T00:00:00 of a naive datetime's fields. -/
def toMicros (dt : DateTime) : Int :=
  daysFromCivil dt.date.year dt.date.month dt.date.day * 86400000000
    + dt.time.hour * 3600000000 + dt.time.minute * 60000000
    + dt.time.second * 1000000 + dt.time.microsecond

/-- Naive datetime whose fields denote the given microsecond count
(model of exact Python `datetime + timedelta` arithmetic). -/
def ofMicros (n : Int) : DateTime :=
  let day := n.ediv 86400000000
  let r := (n.emod 86400000000).toNat
  match civilFromDays day with
  | (y, m, d) =>
    { date := { year := y, month := m, day := d },
      time := { hour := r / 3600000000, minute := (r % 3600000000) / 60000000,
                second := (r % 60000000) / 1000000, microsecond := r % 1000000 } }

/-- Model of `dt.replace(tzinfo=datetime.timezone.utc).astimezone().replace(tzinfo=None)`:
attach UTC to a naive datetime, convert to the process's local zone (offset
`offSec` seconds east of UTC), and strip the zone again. -/
def utcToLocalNaive (offSec : Int) (dt : DateTime) : DateTime :=
  ofMicros (toMicros dt + offSec * 1000000)

/-- A naive datetime's fields as rational seconds since the epoch. -/
def secondsOf (dt : DateTime) : ℚ := (toMicros dt : ℚ) / 1000000

/-! Section: String helpers (models of the Python string operations used) -/

/-- Model of `str.startswith` on explicit character lists. -/
def startsWithL : List Char → List Char → Bool
  | _, [] => true
  | [], _ :: _ => false
  | a :: as, b :: bs => a = b && startsWithL as bs

/-- Model of `line.startswith(pat)`. -/
def strStarts (s pat : String) : Bool := startsWithL s.data pat.data

/-- Split a character list at every occurrence of the separator. -/
def splitOnChar (c : Char) : List Char → List (List Char)
  | [] => [[]]
  | x :: xs =>
    match splitOnChar c xs with
    | [] => [[]]
    | r :: rs => if x = c then [] :: r :: rs else (x :: r) :: rs

/-- Accumulate a decimal digit string; `none` on any non-digit. -/
def digitsAux : List Char → Nat → Option Nat
  | [], acc => some acc
  | c :: cs, acc => if c.isDigit then digitsAux cs (acc * 10 + (c.toNat - 48)) else none

/-- Value of a nonempty all-digit character list. -/
def digitsToNat (l : List Char) : Option Nat :=
  if l.isEmpty then none else digitsAux l 0

/-- Model of `"UTC" in s` on the character list. -/
def containsUTCl : List Char → Bool
  | 'U' :: 'T' :: 'C' :: _ => true
  | _ :: rest => containsUTCl rest
  | [] => false

/-- Model of `"UTC" in label_str`. -/
def strContainsUTC (s : String) : Bool := containsUTCl s.data

/-- Remove every (left-to-right, non-overlapping) occurrence of `" UTC"`. -/
def removeUTCl : List Char → List Char
  | ' ' :: 'U' :: 'T' :: 'C' :: rest => removeUTCl rest
  | c :: rest => c :: removeUTCl rest
  | [] => []

/-- Model of `label_str.replace(" UTC", "")`. -/
def replaceUTC (s : String) : String := ⟨removeUTCl s.data⟩

/-- Two-digit zero-padded decimal rendering. -/
def pad2 (n : Nat) : String := if n < 10 then "0" ++ toString n else toString n

/-- Four-digit zero-padded decimal rendering. -/
def pad4 (n : Nat) : String :=
  (if n < 10 then "000" else if n < 100 then "00" else if n < 1000 then "0" else "")
    ++ toString n

/-- Model of `gps_utc.strftime("%Y-%m-%d %H:%M:%S UTC")`. -/
def strftimeUtcLabel (dt : DateTime) : String :=
  pad4 dt.date.year.toNat ++ "-" ++ pad2 dt.date.month ++ "-" ++ pad2 dt.date.day
    ++ " " ++ pad2 dt.time.hour ++ ":" ++ pad2 dt.time.minute ++ ":" ++ pad2 dt.time.second
    ++ " UTC"

/-- Gregorian leap-year test. -/
def isLeapYear (y : Int) : Bool := y % 4 = 0 && (y % 100 ≠ 0 || y % 400 = 0)

/-- Day count of a month (model of Python `datetime` validation). -/
def daysInMonth (y : Int) (m : Nat) : Nat :=
  if m = 2 then (if isLeapYear y then 29 else 28)
  else if m = 4 ∨ m = 6 ∨ m = 9 ∨ m = 11 then 30
  else 31

/-- A one-or-two-digit numeric field with an inclusive range bound. -/
def parseField (maxLen lo hi : Nat) (l : List Char) : Option Nat := do
  guard (l.length ≤ maxLen)
  let v ← digitsToNat l
  guard (lo ≤ v ∧ v ≤ hi)
  pure v

/-- Exactly two components, as a pair. -/
def pairOf (l : List (List Char)) : Option (List Char × List Char) :=
  match l with
  | [a, b] => some (a, b)
  | _ => none

/-- Exactly three components, as a triple. -/
def tripleOf (l : List (List Char)) : Option (List Char × List Char × List Char) :=
  match l with
  | [a, b, c] => some (a, b, c)
  | _ => none

/-- Model of `datetime.datetime.strptime(s, "%Y-%m-%d %H:%M:%S")` for the
canonical single-space strings this program produces: a four-digit year,
one-or-two-digit month/day/hour/minute/second, and `datetime`'s own range
validation (month 1-12, day within the month, hour below 24, minute and
second below 60); `none` models the `ValueError` path. -/
def strptimeYmdHms (s : String) : Option DateTime := do
  let (ds, ts) ← pairOf (splitOnChar ' ' s.data)
  let (ys, ms, dl) ← tripleOf (splitOnChar '-' ds)
  let (hs, ml, sl) ← tripleOf (splitOnChar ':' ts)
  guard (ys.length = 4)
  let y ← digitsToNat ys
  guard (1 ≤ y)
  let m ← parseField 2 1 12 ms
  let d ← parseField 2 1 31 dl
  guard (d ≤ daysInMonth (y : Int) m)
  let hh ← parseField 2 0 23 hs
  let mi ← parseField 2 0 59 ml
  let ss ← parseField 2 0 59 sl
  pure ⟨⟨(y : Int), m, d⟩, ⟨hh, mi, ss, 0⟩⟩

/-! Section: Clock-setting boundary (model of `SYSTEMTIME` and the two setters) -/

/-- Model of the Windows `SYSTEMTIME` structure filled by the program. -/
structure SYSTEMTIME where
  wYear : Int
  wMonth : Nat
  wDayOfWeek : Nat
  wDay : Nat
  wHour : Nat
  wMinute : Nat
  wSecond : Nat
  wMilliseconds : Nat
deriving DecidableEq

/-- The `SYSTEMTIME` filled from a naive datetime by `set_system_time_utc`
and `set_system_time_local`: calendar fields copied, `wDayOfWeek` zeroed,
`wMilliseconds = int(microsecond / 1000)`. -/
def systemtimeOf (dt : DateTime) : SYSTEMTIME :=
  { wYear := dt.date.year, wMonth := dt.date.month, wDayOfWeek := 0,
    wDay := dt.date.day, wHour := dt.time.hour, wMinute := dt.time.minute,
    wSecond := dt.time.second, wMilliseconds := dt.time.microsecond / 1000 }

/-- An invocation of the external clock-setting boundary. -/
inductive ClockCall where
  | setUtc (st : SYSTEMTIME)
  | setLocal (st : SYSTEMTIME)
deriving DecidableEq

/-- Model of `set_system_time_utc(dt_utc)`: a `kernel32.SetSystemTime` call. -/
def set_system_time_utc (dt_utc : DateTime) : ClockCall :=
  ClockCall.setUtc (systemtimeOf dt_utc)

/-- Model of `set_system_time_local(dt_local)`: a `kernel32.SetLocalTime` call. -/
def set_system_time_local (dt_local : DateTime) : ClockCall :=
  ClockCall.setLocal (systemtimeOf dt_local)

/-! Section: Application state -/

/-- Ambient process quantities fixed at startup: the local zone's UTC offset
in seconds, and the anchor pair `perf_base = time.perf_counter()`,
`time_base = datetime.datetime.now()` captured once in `__init__`
(`time_base` as rational seconds of the naive local reading). -/
structure Env where
  off : Int
  perf_base : ℚ
  time_base : ℚ

/-- The configuration fields the core reads. -/
structure Config where
  auto_connect_sync : Bool
  use_local_time : Bool
  sync_interval_minutes : ℚ
deriving DecidableEq

/-- The mutable application state the core touches: the current-fix slot
`last_gps_utc`, the offset sample `last_delta_sec`, the GPS time display
string `gps_time_str`, the status box lines, the error pop-ups shown, and
the clock-setting boundary calls issued. -/
structure AppState where
  last_gps_utc : Option DateTime
  last_delta_sec : Option ℚ
  gps_time_str : String
  log : List String
  errors : List String
  clockCalls : List ClockCall
deriving DecidableEq

/-- State at startup: no fix, no delta, display `"--:--:--"`. -/
def initialAppState : AppState :=
  { last_gps_utc := none, last_delta_sec := none, gps_time_str := "--:--:--",
    log := [], errors := [], clockCalls := [] }

/-- The fields of a parsed `pynmea2` RMC message the program reads. -/
structure RmcMsg where
  is_valid : Bool
  datestamp : Option Date
  timestamp : Option Time
deriving DecidableEq

/-- One serial read: the perf-counter samples bracketing `readline`, the
decoded text, and the `pynmea2.parse` outcome for it (`none` models a
`pynmea2.ParseError`). -/
structure LineInput where
  t_start : ℚ
  t_end : ℚ
  text : String
  parsed : Option RmcMsg
deriving DecidableEq

/-! Section: Clock domain bridge, decoder, offset tracker, sync -/

/-- Model of `perf_to_system_time`: `time_base + (pc_time - perf_base)`. -/
def perf_to_system_time (env : Env) (pc_time : ℚ) : ℚ :=
  env.time_base + (pc_time - env.perf_base)

/-- Absolute instant (epoch seconds) of a naive UTC datetime after
`replace(tzinfo=utc).astimezone()`: attaching UTC and converting zones
preserves the instant. -/
def localAwareOfUtc (dt : DateTime) : ℚ := secondsOf dt

/-- Absolute instant (epoch seconds) of a naive local reading after
`astimezone()`: the naive value is interpreted in the process's local zone,
`off` seconds east of UTC. -/
def localAwareOfNaiveLocal (off : Int) (t : ℚ) : ℚ := t - (off : ℚ)

/-- The estimated arrival instant of a line: the clock domain bridge applied
to the mid-point `(t_start + t_end) / 2.0` of the bracketing ticks. -/
def receivedAt (env : Env) (li : LineInput) : ℚ :=
  perf_to_system_time env ((li.t_start + li.t_end) / 2)

/-- Model of `convert_nmea_to_datetime`: combine datestamp and timestamp
when both are present, else `None`. -/
def convert_nmea_to_datetime (rmc_msg : RmcMsg) : Option DateTime :=
  match rmc_msg.datestamp, rmc_msg.timestamp with
  | some d, some t => some (DateTime.combine d t)
  | _, _ => none

/-- The decode decision `gps_thread_loop` makes for one read line: skip
empty lines, accept only `$GPRMC`/`$GNRMC` sentences, skip `ParseError`
lines, require the message's validity flag, and combine date and time via
`convert_nmea_to_datetime`. -/
def decodeLine (li : LineInput) : Option DateTime :=
  if li.text = "" then none
  else if strStarts li.text "$GPRMC" || strStarts li.text "$GNRMC" then
    match li.parsed with
    | some msg => if msg.is_valid then convert_nmea_to_datetime msg else none
    | none => none
  else none

/-- Model of the fallback-and-resolve step at the top of `sync_time`:
the override if supplied, else `last_gps_utc`, else the GPS display label
parsed back (only when it mentions `UTC`, via
`strptime(label.replace(" UTC", ""), "%Y-%m-%d %H:%M:%S")`). -/
def resolveGpsUtc (s : AppState) (gps_utc : Option DateTime) : Option DateTime :=
  match gps_utc with
  | some dt => some dt
  | none =>
    match s.last_gps_utc with
    | some dt => some dt
    | none =>
      if strContainsUTC s.gps_time_str then strptimeYmdHms (replaceUTC s.gps_time_str)
      else none

/-- The clock call `sync_time` issues for a resolved naive UTC instant:
`SetLocalTime` on the zone-converted naive local value when
`use_local_time` is set, else `SetSystemTime` on the naive UTC value. -/
def clockCallFor (env : Env) (cfg : Config) (dt : DateTime) : ClockCall :=
  if cfg.use_local_time then set_system_time_local (utcToLocalNaive env.off dt)
  else set_system_time_utc dt

/-- Model of `sync_time(gps_utc=None)`: resolve the instant to apply
(override, else current fix, else display-label fallback), report
`"No valid GPS time available."` when resolution fails, otherwise apply it
through the configured clock-setting boundary operation and log. -/
def sync_time (env : Env) (cfg : Config) (s : AppState) (gps_utc : Option DateTime) :
    AppState :=
  match resolveGpsUtc s gps_utc with
  | none => { s with errors := s.errors ++ ["No valid GPS time available."] }
  | some dt =>
    if cfg.use_local_time then
      let local_naive := utcToLocalNaive env.off dt
      { s with clockCalls := s.clockCalls ++ [set_system_time_local local_naive],
               log := s.log ++ ["System time set to LOCAL"] }
    else
      { s with clockCalls := s.clockCalls ++ [set_system_time_utc dt],
               log := s.log ++ ["System time set to UTC"] }

/-- The state of one `gps_thread_loop` session: the shared application
state plus the session-local `first_valid_time_received` flag. -/
structure ThreadState where
  app : AppState
  first_valid_time_received : Bool
deriving DecidableEq

/-- Thread state at session start (`first_valid_time_received = False`). -/
def initialThreadState : ThreadState := ⟨initialAppState, false⟩

/-- Model of one successful-read iteration of `gps_thread_loop`: decode the
line; on acceptance store the fix, refresh the display label, compute
`delta_seconds` from the mid-point estimate, and auto-sync once per session
when configured; on any rejection leave the state untouched. -/
def processLine (env : Env) (cfg : Config) (ts : ThreadState) (li : LineInput) :
    ThreadState :=
  match decodeLine li with
  | none => ts
  | some gps_utc =>
    let system_time_at_mid := receivedAt env li
    let gps_local_aware := localAwareOfUtc gps_utc
    let sys_local_aware := localAwareOfNaiveLocal env.off system_time_at_mid
    let dt_sec := gps_local_aware - sys_local_aware
    let app := { ts.app with
      last_gps_utc := some gps_utc,
      gps_time_str := strftimeUtcLabel gps_utc,
      last_delta_sec := some dt_sec }
    if cfg.auto_connect_sync && !ts.first_valid_time_received then
      { app := sync_time env cfg app (some gps_utc), first_valid_time_received := true }
    else
      { ts with app := app }

/-! Section: Auto-sync scheduler -/

/-- Model of Python `int(q)`: truncation toward zero. -/
def pyInt (q : ℚ) : Int := q.num.tdiv (q.den : Int)

/-- Model of `interval_ms = int(minutes * 60 * 1000)`. -/
def interval_ms (minutes : ℚ) : Int := pyInt (minutes * 60 * 1000)

/-- Model of `schedule_auto_sync`: `root.after(interval_ms, ...)` arms one
more pending timer; the previously armed ones are left in place. -/
def schedule_auto_sync (cfg : Config) (pending : List Int) : List Int :=
  pending ++ [interval_ms cfg.sync_interval_minutes]

/-- Model of `apply_auto_sync_interval(minutes)`: store the new interval and
rearm via `schedule_auto_sync` (no cancellation of older timers). -/
def apply_auto_sync_interval (minutes : ℚ) (cfg : Config) (pending : List Int) :
    Config × List Int :=
  let cfg2 := { cfg with sync_interval_minutes := minutes }
  (cfg2, schedule_auto_sync cfg2 pending)

/-- Model of `auto_sync_callback` firing (its own pending timer already
consumed): call `sync_time()` with no override, then rearm with the
currently configured interval. -/
def auto_sync_callback (env : Env) (cfg : Config) (s : AppState) (pending : List Int) :
    AppState × List Int :=
  (sync_time env cfg s none, schedule_auto_sync cfg pending)

/-! Section: Concrete sample values (the literal scenario of the spec) -/

/-- The decoded fix of the spec's literal scenario: 1994-03-23T12:35:19. -/
def rmc1994 : DateTime := ⟨⟨1994, 3, 23⟩, ⟨12, 35, 19, 0⟩⟩

/-- A valid parsed RMC message carrying that datestamp and timestamp. -/
def msg1994 : RmcMsg := ⟨true, some ⟨1994, 3, 23⟩, some ⟨12, 35, 19, 0⟩⟩

/-- A raw read of the spec's sample sentence with its parse outcome. -/
def line1994 : LineInput :=
  ⟨0, 1/10, "$GPRMC,123519,A,4807.038,N,01131.000,E,022.4,084.4,230394,003.1,W*6A",
    some msg1994⟩

/-- An empty read (the `if not line: continue` path). -/
def emptyLine : LineInput := ⟨0, 0, "", none⟩

/-- A sentence with a matching identifier whose parse fails
(the `pynmea2.ParseError` path). -/
def badLine : LineInput := ⟨0, 1, "$GPRMC,BAD", none⟩

/-- A sample environment: one hour east of UTC, zero anchors. -/
def env0 : Env := ⟨3600, 0, 0⟩

/-- A sample configuration: auto-connect-and-sync on, local time on. -/
def cfg0 : Config := ⟨true, true, 30⟩

/-- A state whose display label was set by a fix but whose fix slot is
empty (exercises the display-label fallback of `sync_time`). -/
def label1994state : AppState :=
  { initialAppState with gps_time_str := "1994-03-23 12:35:19 UTC" }

/-- A state holding the sample fix in the current-fix slot. -/
def fixedState : AppState := { initialAppState with last_gps_utc := some rmc1994 }

/-- Session invariant of the acquisition thread: the number of
clock-setting calls it has issued is one exactly when the session's
`first_valid_time_received` flag is set. -/
def sessionInv (ts : ThreadState) : Prop :=
  ts.app.clockCalls.length = (if ts.first_valid_time_received then 1 else 0)

/-! Section: Helper lemmas -/

theorem processLine_of_decode_none (env : Env) (cfg : Config) (ts : ThreadState)
    (li : LineInput) (h : decodeLine li = none) :
    processLine env cfg ts li = ts := by
  simp [processLine, h]

theorem foldl_processLine_of_none (env : Env) (cfg : Config) (lines : List LineInput)
    (ts : ThreadState) (h : ∀ li ∈ lines, decodeLine li = none) :
    lines.foldl (processLine env cfg) ts = ts := by
  induction lines generalizing ts with
  | nil => rfl
  | cons a l ih =>
    simp only [List.foldl_cons]
    rw [processLine_of_decode_none env cfg ts a (h a (by simp))]
    exact ih ts (fun li hli => h li (by simp [hli]))

theorem sync_time_some (env : Env) (cfg : Config) (s : AppState) (dt : DateTime) :
    sync_time env cfg s (some dt) =
      if cfg.use_local_time then
        { s with
            clockCalls := s.clockCalls ++ [set_system_time_local (utcToLocalNaive env.off dt)],
            log := s.log ++ ["System time set to LOCAL"] }
      else
        { s with clockCalls := s.clockCalls ++ [set_system_time_utc dt],
                 log := s.log ++ ["System time set to UTC"] } := by
  simp [sync_time, resolveGpsUtc]

theorem sync_time_some_clockCalls (env : Env) (cfg : Config) (s : AppState) (dt : DateTime) :
    (sync_time env cfg s (some dt)).clockCalls = s.clockCalls ++ [clockCallFor env cfg dt] := by
  rw [sync_time_some]
  by_cases h : cfg.use_local_time <;> simp [h, clockCallFor]

theorem sync_time_some_preserves (env : Env) (cfg : Config) (s : AppState) (dt : DateTime) :
    (sync_time env cfg s (some dt)).last_gps_utc = s.last_gps_utc ∧
    (sync_time env cfg s (some dt)).last_delta_sec = s.last_delta_sec ∧
    (sync_time env cfg s (some dt)).errors = s.errors := by
  rw [sync_time_some]
  by_cases h : cfg.use_local_time <;> simp [h]

theorem sync_time_of_resolved (env : Env) (cfg : Config) (s : AppState)
    (o : Option DateTime) (dt : DateTime) (h : resolveGpsUtc s o = some dt) :
    sync_time env cfg s o = sync_time env cfg s (some dt) := by
  unfold sync_time
  rw [h]
  rfl

theorem processLine_of_decode_some (env : Env) (cfg : Config) (ts : ThreadState)
    (li : LineInput) (u : DateTime) (h : decodeLine li = some u) :
    (processLine env cfg ts li).app.last_gps_utc = some u ∧
    (processLine env cfg ts li).app.last_delta_sec =
      some (localAwareOfUtc u - localAwareOfNaiveLocal env.off (receivedAt env li)) := by
  simp only [processLine, h]
  by_cases hb : cfg.auto_connect_sync && !ts.first_valid_time_received
  · simp only [hb, if_true]
    refine ⟨?_, ?_⟩
    · rw [(sync_time_some_preserves env cfg _ u).1]
    · rw [(sync_time_some_preserves env cfg _ u).2.1]
  · simp [hb]

theorem convert_eq_none (msg : RmcMsg)
    (h : msg.datestamp = none ∨ msg.timestamp = none) :
    convert_nmea_to_datetime msg = none := by
  unfold convert_nmea_to_datetime
  rcases h with h | h
  · rw [h]
  · rw [h]; cases msg.datestamp <;> rfl

theorem processLine_sessionInv (env : Env) (cfg : Config) (ts : ThreadState)
    (li : LineInput) (h : sessionInv ts) :
    sessionInv (processLine env cfg ts li) := by
  unfold sessionInv at h ⊢
  cases hd : decodeLine li with
  | none => rw [processLine_of_decode_none env cfg ts li hd]; exact h
  | some u =>
    simp only [processLine, hd]
    by_cases hb : (cfg.auto_connect_sync && !ts.first_valid_time_received) = true
    · have hf : ts.first_valid_time_received = false := by
        cases hx : ts.first_valid_time_received
        · rfl
        · rw [hx] at hb; simp at hb
      rw [hf] at h
      simp only [if_neg Bool.false_ne_true] at h
      simp only [hb, if_true]
      rw [sync_time_some_clockCalls]
      simp [h]
    · simp only [hb, if_false]
      simpa using h

theorem foldl_processLine_sessionInv (env : Env) (cfg : Config)
    (lines : List LineInput) (ts : ThreadState) (h : sessionInv ts) :
    sessionInv (lines.foldl (processLine env cfg) ts) := by
  induction lines generalizing ts with
  | nil => exact h
  | cons a l ih => exact ih _ (processLine_sessionInv env cfg ts a h)

theorem processLine_flag_true (env : Env) (cfg : Config) (ts : ThreadState)
    (li : LineInput) (h : ts.first_valid_time_received = true) :
    (processLine env cfg ts li).first_valid_time_received = true ∧
    (processLine env cfg ts li).app.clockCalls = ts.app.clockCalls := by
  cases hd : decodeLine li with
  | none => rw [processLine_of_decode_none env cfg ts li hd]; exact ⟨h, rfl⟩
  | some u =>
    have hb : (cfg.auto_connect_sync && !ts.first_valid_time_received) = false := by
      rw [h]; simp
    simp [processLine, hd, hb, h]

theorem foldl_processLine_flag_true (env : Env) (cfg : Config)
    (lines : List LineInput) (ts : ThreadState)
    (h : ts.first_valid_time_received = true) :
    (lines.foldl (processLine env cfg) ts).first_valid_time_received = true ∧
    (lines.foldl (processLine env cfg) ts).app.clockCalls = ts.app.clockCalls := by
  induction lines generalizing ts with
  | nil => exact ⟨h, rfl⟩
  | cons a l ih =>
    simp only [List.foldl_cons]
    obtain ⟨h1, h2⟩ := processLine_flag_true env cfg ts a h
    obtain ⟨h3, h4⟩ := ih _ h1
    exact ⟨h3, h4.trans h2⟩

theorem processLine_first_fire (env : Env) (cfg : Config) (ts : ThreadState)
    (li : LineInput) (u : DateTime) (ha : cfg.auto_connect_sync = true)
    (hf : ts.first_valid_time_received = false) (h : decodeLine li = some u) :
    (processLine env cfg ts li).first_valid_time_received = true ∧
    (processLine env cfg ts li).app.clockCalls =
      ts.app.clockCalls ++ [clockCallFor env cfg u] := by
  have hb : (cfg.auto_connect_sync && !ts.first_valid_time_received) = true := by
    rw [ha, hf]; rfl
  constructor
  · simp [processLine, h, hb]
  · simp only [processLine, h, hb, if_true]
    rw [sync_time_some_clockCalls]

/-! Section: Claim theorems -/

/-- C1: every fix accepted by the decoder is stored as the current fix, and
`delta_seconds` is computed as (the naive UTC instant made local-aware)
minus (the mid-point arrival estimate made local-aware), in seconds;
in the spec's literal scenario (fix 1994-03-23T12:35:19, arrival measured
as 12:35:19.050 local-zone-equivalent) the delta is exactly -0.05. -/
theorem offset_update_stores_fix_and_delta (env : Env) (cfg : Config)
    (ts : ThreadState) (li : LineInput) (u : DateTime)
    (h : decodeLine li = some u) :
    ((processLine env cfg ts li).app.last_gps_utc = some u ∧
     (processLine env cfg ts li).app.last_delta_sec =
       some (localAwareOfUtc u - localAwareOfNaiveLocal env.off (receivedAt env li))) ∧
    (∀ off : Int, ∀ mid : ℚ,
      localAwareOfNaiveLocal off mid = secondsOf ⟨⟨1994, 3, 23⟩, ⟨12, 35, 19, 50000⟩⟩ →
      localAwareOfUtc rmc1994 - localAwareOfNaiveLocal off mid = -(1 / 20)) := by
  refine ⟨processLine_of_decode_some env cfg ts li u h, ?_⟩
  intro off mid hmid
  have h1 : toMicros rmc1994 = 764426119000000 := by decide
  have h2 : toMicros ⟨⟨1994, 3, 23⟩, ⟨12, 35, 19, 50000⟩⟩ = 764426119050000 := by decide
  rw [hmid]
  simp only [localAwareOfUtc, secondsOf, h1, h2]
  norm_num

theorem offset_update_stores_fix_and_delta_witness :
    decodeLine line1994 = some rmc1994 ∧
    (((processLine env0 cfg0 initialThreadState line1994).app.last_gps_utc = some rmc1994 ∧
      (processLine env0 cfg0 initialThreadState line1994).app.last_delta_sec =
        some (localAwareOfUtc rmc1994 -
          localAwareOfNaiveLocal env0.off (receivedAt env0 line1994))) ∧
     (∀ off : Int, ∀ mid : ℚ,
       localAwareOfNaiveLocal off mid = secondsOf ⟨⟨1994, 3, 23⟩, ⟨12, 35, 19, 50000⟩⟩ →
       localAwareOfUtc rmc1994 - localAwareOfNaiveLocal off mid = -(1 / 20))) :=
  ⟨by decide,
    offset_update_stores_fix_and_delta env0 cfg0 initialThreadState line1994 rmc1994
      (by decide)⟩

/-- C2: a line decodes to a fix exactly when it carries one of the two
accepted talker-ID variants of the RMC sentence, parses, has its validity
flag set and carries both date and time fields, in which case the fix is
the combination of those two fields; empty lines, other sentence types,
invalid-flag messages and messages missing a field decode to nothing, and
a line that decodes to nothing leaves the whole thread state (in
particular the current fix and the offset) unchanged. -/
theorem decode_rmc_characterization (env : Env) (cfg : Config) (ts : ThreadState)
    (li : LineInput) :
    (∀ msg d t,
      (strStarts li.text "$GPRMC" = true ∨ strStarts li.text "$GNRMC" = true) →
      li.parsed = some msg → msg.is_valid = true →
      msg.datestamp = some d → msg.timestamp = some t →
      decodeLine li = some (DateTime.combine d t)) ∧
    (decodeLine li = none → processLine env cfg ts li = ts) ∧
    ((li.text = "" ∨
      (strStarts li.text "$GPRMC" = false ∧ strStarts li.text "$GNRMC" = false) ∨
      (∀ msg, li.parsed = some msg →
        msg.is_valid = false ∨ msg.datestamp = none ∨ msg.timestamp = none)) →
      decodeLine li = none) := by
  refine ⟨?_, fun h => processLine_of_decode_none env cfg ts li h, ?_⟩
  · intro msg d t hpre hparse hvalid hd ht
    have hne : ¬ li.text = "" := by
      intro he
      rcases hpre with h1 | h1 <;> rw [he] at h1 <;> exact absurd h1 (by decide)
    rcases hpre with h1 | h1 <;>
      simp [decodeLine, hne, h1, hparse, hvalid, convert_nmea_to_datetime, hd, ht]
  · intro hrej
    by_cases he : li.text = ""
    · simp [decodeLine, he]
    · rcases hrej with h | ⟨h1, h2⟩ | hmsg
      · exact absurd h he
      · simp [decodeLine, he, h1, h2]
      · by_cases hp : (strStarts li.text "$GPRMC" || strStarts li.text "$GNRMC") = true
        · cases hparsed : li.parsed with
          | none => simp [decodeLine, he, hp, hparsed]
          | some msg =>
            rcases hmsg msg hparsed with hv | hdt
            · simp [decodeLine, he, hp, hparsed, hv]
            · cases hv : msg.is_valid <;>
                simp [decodeLine, he, hp, hparsed, hv, convert_eq_none msg hdt]
        · simp only [Bool.or_eq_true, not_or, Bool.not_eq_true] at hp
          simp [decodeLine, he, hp.1, hp.2]

theorem decode_rmc_characterization_witness :
    decodeLine line1994 = some (DateTime.combine ⟨1994, 3, 23⟩ ⟨12, 35, 19, 0⟩) ∧
    processLine env0 cfg0 initialThreadState emptyLine = initialThreadState ∧
    decodeLine emptyLine = none :=
  ⟨(decode_rmc_characterization env0 cfg0 initialThreadState line1994).1
      msg1994 ⟨1994, 3, 23⟩ ⟨12, 35, 19, 0⟩ (Or.inl (by decide)) rfl rfl rfl rfl,
   (decode_rmc_characterization env0 cfg0 initialThreadState emptyLine).2.1 (by decide),
   (decode_rmc_characterization env0 cfg0 initialThreadState emptyLine).2.2
      (Or.inl (by decide))⟩

/-- C3: the mid-point tick handed to the clock domain bridge is the
arithmetic mean of the bracketing tick samples (visible in the stored
delta), `perf_to_system_time` is exactly the anchored affine map
`time_base + (tick - perf_base)`, and it is monotone in its tick
argument. -/
theorem midpoint_bridge_and_monotonicity (env : Env) (cfg : Config) (ts : ThreadState)
    (li : LineInput) (u : DateTime) :
    (decodeLine li = some u →
      (processLine env cfg ts li).app.last_delta_sec =
        some (localAwareOfUtc u -
          localAwareOfNaiveLocal env.off
            (perf_to_system_time env ((li.t_start + li.t_end) / 2)))) ∧
    (∀ t : ℚ, perf_to_system_time env t = env.time_base + (t - env.perf_base)) ∧
    (∀ t1 t2 : ℚ, t1 ≤ t2 → perf_to_system_time env t1 ≤ perf_to_system_time env t2) := by
  refine ⟨?_, fun t => rfl, ?_⟩
  · intro h
    exact (processLine_of_decode_some env cfg ts li u h).2
  · intro t1 t2 h
    simp only [perf_to_system_time]
    linarith

theorem midpoint_bridge_and_monotonicity_witness :
    decodeLine line1994 = some rmc1994 ∧
    (processLine env0 cfg0 initialThreadState line1994).app.last_delta_sec =
      some (localAwareOfUtc rmc1994 -
        localAwareOfNaiveLocal env0.off
          (perf_to_system_time env0 ((line1994.t_start + line1994.t_end) / 2))) ∧
    ((0 : ℚ) ≤ 1 ∧ perf_to_system_time env0 0 ≤ perf_to_system_time env0 1) :=
  ⟨by decide,
   (midpoint_bridge_and_monotonicity env0 cfg0 initialThreadState line1994 rmc1994).1
     (by decide),
   by norm_num,
   (midpoint_bridge_and_monotonicity env0 cfg0 initialThreadState line1994 rmc1994).2.2
     0 1 (by norm_num)⟩

/-- C5: for a resolved naive UTC instant, `sync_time` requests the
`SetLocalTime`-style operation on the attach-UTC/convert/strip naive local
value when the local-time preference is set, and the `SetSystemTime`-style
operation on the unchanged naive UTC instant otherwise. -/
theorem sync_applies_local_or_utc_representation (env : Env) (cfg : Config)
    (s : AppState) (dt : DateTime) :
    sync_time env cfg s (some dt) =
      if cfg.use_local_time then
        { s with
            clockCalls := s.clockCalls ++
              [set_system_time_local (utcToLocalNaive env.off dt)],
            log := s.log ++ ["System time set to LOCAL"] }
      else
        { s with clockCalls := s.clockCalls ++ [set_system_time_utc dt],
                 log := s.log ++ ["System time set to UTC"] } :=
  sync_time_some env cfg s dt

/-- C4: when no fix has ever been recorded (the session processed only
lines that decode to nothing), `sync_time` with no override reports the
"No valid GPS time available." error to the user and issues no
clock-setting boundary call at all. -/
theorem sync_without_fix_reports_error_without_clock_call (env : Env) (cfg : Config)
    (lines : List LineInput) (h : ∀ li ∈ lines, decodeLine li = none) :
    sync_time env cfg ((lines.foldl (processLine env cfg) initialThreadState).app) none =
      { (lines.foldl (processLine env cfg) initialThreadState).app with
          errors := (lines.foldl (processLine env cfg) initialThreadState).app.errors ++
            ["No valid GPS time available."] } ∧
    (sync_time env cfg ((lines.foldl (processLine env cfg) initialThreadState).app)
        none).clockCalls = [] := by
  rw [foldl_processLine_of_none env cfg lines initialThreadState h]
  constructor <;>
    simp [sync_time, resolveGpsUtc, initialThreadState, initialAppState,
      show strContainsUTC "--:--:--" = false from by decide]

theorem sync_without_fix_reports_error_without_clock_call_witness :
    (∀ li ∈ [emptyLine, badLine], decodeLine li = none) ∧
    (sync_time env0 cfg0
        (([emptyLine, badLine].foldl (processLine env0 cfg0) initialThreadState).app)
        none).clockCalls = [] :=
  ⟨by decide,
   (sync_without_fix_reports_error_without_clock_call env0 cfg0 [emptyLine, badLine]
      (by decide)).2⟩

/-- C6: with the auto-connect-and-sync flag enabled, the automatic
synchronization fires exactly on the first sentence of the session that
decodes successfully — no clock call before it, one clock call after it,
and still exactly one after arbitrarily many further sentences — and in
any session the thread issues at most one clock call. -/
theorem auto_sync_fires_once_per_session (env : Env) (cfg : Config)
    (pre post lines : List LineInput) (l : LineInput) (u : DateTime) :
    (cfg.auto_connect_sync = true →
      (∀ li ∈ pre, decodeLine li = none) →
      decodeLine l = some u →
      ((pre.foldl (processLine env cfg) initialThreadState).app.clockCalls.length = 0 ∧
       ((pre ++ [l]).foldl (processLine env cfg)
          initialThreadState).app.clockCalls.length = 1 ∧
       ((pre ++ [l] ++ post).foldl (processLine env cfg)
          initialThreadState).app.clockCalls.length = 1)) ∧
    (lines.foldl (processLine env cfg) initialThreadState).app.clockCalls.length ≤ 1 := by
  constructor
  · intro ha hpre hl
    have hA : pre.foldl (processLine env cfg) initialThreadState = initialThreadState :=
      foldl_processLine_of_none env cfg pre initialThreadState hpre
    have hfire := processLine_first_fire env cfg initialThreadState l u ha rfl hl
    have hB : (pre ++ [l]).foldl (processLine env cfg) initialThreadState =
        processLine env cfg initialThreadState l := by
      rw [List.foldl_append, hA]
      rfl
    refine ⟨by rw [hA]; rfl, by rw [hB, hfire.2]; rfl, ?_⟩
    rw [List.foldl_append, hB]
    obtain ⟨h1, h2⟩ := foldl_processLine_flag_true env cfg post _ hfire.1
    rw [h2, hfire.2]
    rfl
  · have h := foldl_processLine_sessionInv env cfg lines initialThreadState rfl
    unfold sessionInv at h
    rw [h]
    split <;> norm_num

theorem auto_sync_fires_once_per_session_witness :
    cfg0.auto_connect_sync = true ∧
    (∀ li ∈ [emptyLine], decodeLine li = none) ∧
    decodeLine line1994 = some rmc1994 ∧
    ((([emptyLine] : List LineInput).foldl (processLine env0 cfg0)
        initialThreadState).app.clockCalls.length = 0 ∧
     (([emptyLine] ++ [line1994]).foldl (processLine env0 cfg0)
        initialThreadState).app.clockCalls.length = 1 ∧
     (([emptyLine] ++ [line1994] ++ [line1994, line1994]).foldl (processLine env0 cfg0)
        initialThreadState).app.clockCalls.length = 1) ∧
    ([line1994, line1994].foldl (processLine env0 cfg0)
        initialThreadState).app.clockCalls.length ≤ 1 :=
  ⟨rfl, by decide, by decide,
   (auto_sync_fires_once_per_session env0 cfg0 [emptyLine] [line1994, line1994]
      [line1994, line1994] line1994 rmc1994).1 rfl (by decide) (by decide),
   (auto_sync_fires_once_per_session env0 cfg0 [emptyLine] [line1994, line1994]
      [line1994, line1994] line1994 rmc1994).2⟩

/-- C7 counterexample: a `$GPRMC` line whose parse fails is skipped with
the thread state — including the status log — completely unchanged, so no
malformed-sentence event reaches the status sink, contradicting the claim
that the event is logged rather than silently dropped. -/
theorem malformed_line_produces_no_log_entry :
    processLine env0 cfg0 initialThreadState badLine = initialThreadState ∧
    (processLine env0 cfg0 initialThreadState badLine).app.log = [] := by
  decide

/-- C7 (amended): a line matching the accepted sentence identifiers whose
parse fails is swallowed non-fatally — the acquisition loop's state,
including the current fix and the status log, is left entirely untouched;
the malformed-sentence event is silently skipped, not logged. -/
theorem malformed_line_silently_swallowed (env : Env) (cfg : Config)
    (ts : ThreadState) (li : LineInput)
    (h1 : strStarts li.text "$GPRMC" = true ∨ strStarts li.text "$GNRMC" = true)
    (h2 : li.parsed = none) :
    processLine env cfg ts li = ts := by
  apply processLine_of_decode_none
  have hne : ¬ li.text = "" := by
    intro he; rcases h1 with h | h <;> rw [he] at h <;> exact absurd h (by decide)
  rcases h1 with h | h <;> simp [decodeLine, hne, h, h2]

theorem malformed_line_silently_swallowed_witness :
    (strStarts badLine.text "$GPRMC" = true ∨ strStarts badLine.text "$GNRMC" = true) ∧
    badLine.parsed = none ∧
    processLine env0 cfg0 initialThreadState badLine = initialThreadState :=
  ⟨Or.inl (by decide), rfl,
   malformed_line_silently_swallowed env0 cfg0 initialThreadState badLine
     (Or.inl (by decide)) rfl⟩

/-- C8 counterexample: reconfiguring the sync interval arms a new timer
without cancelling the previously armed one — after the startup arm and a
single reconfiguration two timers are pending, contradicting the claim
that the previously armed timer is replaced so that only one timer chain
is active. -/
theorem reconfigure_leaves_two_pending_timers :
    ((apply_auto_sync_interval 5 cfg0 (schedule_auto_sync cfg0 [])).2).length = 2 := by
  rfl

/-- C8 (amended): on every (re)configuration the scheduler arms one more
one-shot timer for `int(interval * 60 * 1000)` milliseconds — exactly
`interval x 60000` for whole-minute intervals — WITHOUT cancelling any
previously armed timer, so several timer chains can be active at once; on
firing, the callback calls `sync_time` with no override and immediately
rearms with the currently configured interval. -/
theorem schedule_rearm_behavior (env : Env) (cfg : Config) (s : AppState)
    (minutes : ℚ) (pending : List Int) :
    (apply_auto_sync_interval minutes cfg pending).2 =
      pending ++ [interval_ms minutes] ∧
    (apply_auto_sync_interval minutes cfg pending).1.sync_interval_minutes = minutes ∧
    (∀ n : ℕ, interval_ms (n : ℚ) = (n : Int) * 60000) ∧
    auto_sync_callback env cfg s pending =
      (sync_time env cfg s none, pending ++ [interval_ms cfg.sync_interval_minutes]) := by
  refine ⟨rfl, rfl, ?_, rfl⟩
  intro n
  unfold interval_ms pyInt
  have hcast : ((n : ℚ) * 60 * 1000) = ((n * 60000 : ℕ) : ℚ) := by push_cast; ring
  rw [hcast, Rat.num_natCast, Rat.den_natCast]
  rw [Nat.cast_one, Int.tdiv_one]
  push_cast
  ring

/-- C9: when `sync_time` is called with no override and the current-fix
slot is empty, it first attempts the display-label fallback: if the label
mentions `UTC` and, with `" UTC"` removed, parses in the
`"%Y-%m-%d %H:%M:%S"` format, the parsed value is the instant applied and
the clock IS mutated; the no-fix error is raised only when this fallback
fails. -/
theorem sync_fallback_parses_display_label (env : Env) (cfg : Config) (s : AppState)
    (h : s.last_gps_utc = none) :
    (∀ dt, strContainsUTC s.gps_time_str = true →
      strptimeYmdHms (replaceUTC s.gps_time_str) = some dt →
      sync_time env cfg s none = sync_time env cfg s (some dt) ∧
      (sync_time env cfg s none).clockCalls =
        s.clockCalls ++ [clockCallFor env cfg dt]) ∧
    ((strContainsUTC s.gps_time_str = false ∨
        strptimeYmdHms (replaceUTC s.gps_time_str) = none) →
      sync_time env cfg s none =
        { s with errors := s.errors ++ ["No valid GPS time available."] }) := by
  constructor
  · intro dt hc hp
    have hres : resolveGpsUtc s none = some dt := by
      simp [resolveGpsUtc, h, hc, hp]
    have heq := sync_time_of_resolved env cfg s none dt hres
    exact ⟨heq, by rw [heq, sync_time_some_clockCalls]⟩
  · intro hfail
    have hres : resolveGpsUtc s none = none := by
      rcases hfail with hc | hp
      · simp [resolveGpsUtc, h, hc]
      · by_cases hc : strContainsUTC s.gps_time_str <;>
          simp [resolveGpsUtc, h, hc, hp]
    unfold sync_time
    rw [hres]

theorem sync_fallback_parses_display_label_witness :
    label1994state.last_gps_utc = none ∧
    strContainsUTC label1994state.gps_time_str = true ∧
    strptimeYmdHms (replaceUTC label1994state.gps_time_str) = some rmc1994 ∧
    (sync_time env0 cfg0 label1994state none =
       sync_time env0 cfg0 label1994state (some rmc1994) ∧
     (sync_time env0 cfg0 label1994state none).clockCalls =
       label1994state.clockCalls ++ [clockCallFor env0 cfg0 rmc1994]) :=
  ⟨rfl, by decide, by decide,
   (sync_fallback_parses_display_label env0 cfg0 label1994state rfl).1 rmc1994
     (by decide) (by decide)⟩

/-- C10: the instant handed to the clock-setting boundary is exactly the
stored fix's decoded `utc_instant` (or the supplied override) pushed
through `systemtimeOf`, whose only precision change is
`wMilliseconds = microsecond / 1000`; the result does not depend on the
rest of the state — in particular the stored `delta_seconds` never
influences the applied value and no compensation is applied for the time
elapsed since the fix arrived, so a periodic sync applies a value that is
stale by the age of the latest fix. -/
theorem sync_applies_exact_stale_instant (env : Env) (cfg : Config)
    (s1 : AppState) (dt u : DateTime) (h : s1.last_gps_utc = some u) :
    (sync_time env cfg s1 none).clockCalls =
      s1.clockCalls ++ [clockCallFor env cfg u] ∧
    (∀ s2 : AppState, (sync_time env cfg s2 (some dt)).clockCalls =
      s2.clockCalls ++ [clockCallFor env cfg dt]) ∧
    (∀ q : Option ℚ,
      (sync_time env cfg { s1 with last_delta_sec := q } none).clockCalls =
        s1.clockCalls ++ [clockCallFor env cfg u]) ∧
    systemtimeOf dt =
      { wYear := dt.date.year, wMonth := dt.date.month, wDayOfWeek := 0,
        wDay := dt.date.day, wHour := dt.time.hour, wMinute := dt.time.minute,
        wSecond := dt.time.second, wMilliseconds := dt.time.microsecond / 1000 } := by
  have hres : resolveGpsUtc s1 none = some u := by simp [resolveGpsUtc, h]
  refine ⟨?_, fun s2 => sync_time_some_clockCalls env cfg s2 dt, ?_, rfl⟩
  · rw [sync_time_of_resolved env cfg s1 none u hres, sync_time_some_clockCalls]
  · intro q
    have hres2 : resolveGpsUtc { s1 with last_delta_sec := q } none = some u := by
      simp [resolveGpsUtc, h]
    rw [sync_time_of_resolved env cfg _ none u hres2, sync_time_some_clockCalls]

theorem sync_applies_exact_stale_instant_witness :
    fixedState.last_gps_utc = some rmc1994 ∧
    ((sync_time env0 cfg0 fixedState none).clockCalls =
       fixedState.clockCalls ++ [clockCallFor env0 cfg0 rmc1994] ∧
     (∀ s2 : AppState, (sync_time env0 cfg0 s2 (some rmc1994)).clockCalls =
       s2.clockCalls ++ [clockCallFor env0 cfg0 rmc1994]) ∧
     (∀ q : Option ℚ,
       (sync_time env0 cfg0 { fixedState with last_delta_sec := q } none).clockCalls =
         fixedState.clockCalls ++ [clockCallFor env0 cfg0 rmc1994]) ∧
     systemtimeOf rmc1994 =
       { wYear := rmc1994.date.year, wMonth := rmc1994.date.month, wDayOfWeek := 0,
         wDay := rmc1994.date.day, wHour := rmc1994.time.hour,
         wMinute := rmc1994.time.minute, wSecond := rmc1994.time.second,
         wMilliseconds := rmc1994.time.microsecond / 1000 }) :=
  ⟨rfl, sync_applies_exact_stale_instant env0 cfg0 fixedState rmc1994 rmc1994 rfl⟩

end PyGpsTime
